import Mathlib

/-!
Verification of `haxney/set-investigate` (src/setinfo.py) against its
specification.

The module examines the internals of a CPython set: `_probe_steps`
reconstructs the probe sequence of a key by planting obstacles and
re-inserting the key until it lands in its recorded final slot;
`probe_steps` drives it for one key of a freshly built set, and
`probe_all_steps` is meant to drive it for every key.

The embedding models the CPython (2.x) set object that the source
manipulates through ctypes: a table of slots, a mask, and the fill/used
counters, together with the runtime's open-addressing probe scheme
(`Objects/setobject.c`: initial slot `hash & mask`, reprobe
`i = 5*i + perturb + 1`, `perturb >>= 5`).  Keys are natural numbers and
`pyhash` is the identity, matching CPython's hash on the small
non-negative integers that the repository's scenarios use.  Loops of the
C runtime that can run unboundedly are given fuel; exhausting the fuel
models non-termination of the underlying C loop.
-/

/-- One slot of a CPython set hash table: `empty` is a NULL key, `dummy`
is the tombstone left by a deletion, and `entry h k` is an occupied slot
holding the stored hash `h` and key `k`; `k = none` models the Python
`None` object that `_probe_steps` fabricates as an obstacle key, and
`k = some n` an integer key. -/
inductive Slot where
  | empty : Slot
  | dummy : Slot
  | entry (h : ℕ) (k : Option ℕ) : Slot
deriving DecidableEq

/-- Python-level exceptions that the routines under study can raise.
`invariantError` is modelled from the spec: the spec's §7 names an
`InvariantError` for `reconstruct`; the source defines no such
exception, and the constructor exists so that its absence can be
stated. -/
inductive PyError where
  | keyError : PyError
  | attributeError : PyError
  | typeError : PyError
  | invariantError : PyError
deriving DecidableEq

/-- Outcome of running a fragment of the Python program: a value, a
raised exception, or non-termination of an underlying loop (fuel
exhausted). -/
inductive Res (α : Type) where
  | ok (a : α) : Res α
  | err (e : PyError) : Res α
  | diverge : Res α
deriving DecidableEq

/-- The `PySetObject` view used by src/setinfo.py (lines 46-55): the
slot table, `mask` (`len(self) = mask + 1`, line 57-59), and the
`fill`/`used` counters of the C object. -/
structure PySet where
  table : List Slot
  mask : ℕ
  fill : ℕ
  used : ℕ
deriving DecidableEq

/-- CPython's hash of a small non-negative integer is the integer
itself; the repository only ever hashes such keys. -/
def pyhash (n : ℕ) : ℕ := n

/-- Read `table[i]`; indices past the end of the modelled table read as
NULL (the C code never reads past `mask` on a well-formed object). -/
def tableGet (t : List Slot) (i : ℕ) : Slot := t.getD i Slot.empty

/-- Fuel bound for the runtime's probe loops.  Once `perturb` has been
shifted away the reprobe recurrence `i := 5*i + 1` is a full-period LCG
modulo the power-of-two table size, so any NULL slot is found well
within `2 * (mask + 1) + 64` steps; if no NULL slot exists the C loop
really does run forever, which the model reports as divergence. -/
def lookFuel (st : PySet) : ℕ := 2 * (st.mask + 1) + 64

/-- The reprobe loop of `set_lookkey` (CPython 2.7
`Objects/setobject.c`): `i = (i << 2) + i + perturb + 1`, probe
`table[i & mask]`, `perturb >>= PERTURB_SHIFT` (5).  Stops at the first
NULL (returning the earliest tombstone seen, if any) or at the key. -/
def lookkeyLoop (t : List Slot) (mask key : ℕ) :
    ℕ → ℕ → ℕ → Option ℕ → Option ℕ
  | 0, _, _, _ => none
  | fuel + 1, i, perturb, freeslot =>
    let i2 := 5 * i + perturb + 1
    let j := i2 &&& mask
    match tableGet t j with
    | Slot.empty => some (freeslot.getD j)
    | Slot.dummy =>
        lookkeyLoop t mask key fuel i2 (perturb >>> 5) (freeslot <|> some j)
    | Slot.entry _ k =>
        if k = some key then some j
        else lookkeyLoop t mask key fuel i2 (perturb >>> 5) freeslot

/-- `set_lookkey(so, key, hash)` of CPython 2.7: probe `hash & mask`
first, then the reprobe loop.  Returns the index of the entry the C
routine returns (the key's slot, or the free slot an insert would use);
`none` models the C loop running forever (table with no NULL slot). -/
def set_lookkey (st : PySet) (key : ℕ) : Option ℕ :=
  let h := pyhash key
  let i := h &&& st.mask
  match tableGet st.table i with
  | Slot.empty => some i
  | Slot.dummy => lookkeyLoop st.table st.mask key (lookFuel st) i h (some i)
  | Slot.entry _ k =>
      if k = some key then some i
      else lookkeyLoop st.table st.mask key (lookFuel st) i h none

/-- `set_insert_key`: look the key up and fill the returned slot,
bumping `fill` for a NULL slot, only `used` for a tombstone, and doing
nothing when the key is already present. -/
def set_insert_key (st : PySet) (key : ℕ) : Option PySet :=
  match set_lookkey st key with
  | none => none
  | some j =>
    match tableGet st.table j with
    | Slot.empty =>
        some { st with
                 table := st.table.set j (Slot.entry (pyhash key) (some key)),
                 fill := st.fill + 1, used := st.used + 1 }
    | Slot.dummy =>
        some { st with
                 table := st.table.set j (Slot.entry (pyhash key) (some key)),
                 used := st.used + 1 }
    | Slot.entry _ _ => some st

/-- The size computation of `set_table_resize`: start at `PySet_MINSIZE`
(8) and double while `newsize <= minused`. -/
def growSize : ℕ → ℕ → ℕ → ℕ
  | 0, cur, _ => cur
  | fuel + 1, cur, minused => if cur ≤ minused then growSize fuel (2 * cur) minused else cur

/-- `set_insert_clean`: probe from `hash & mask` to the first NULL slot
and place the entry there (used only while resizing, so no tombstones or
matches are considered beyond the NULL test). -/
def insertCleanLoop (t : List Slot) (mask h : ℕ) (k : Option ℕ) :
    ℕ → ℕ → ℕ → Option (List Slot)
  | 0, _, _ => none
  | fuel + 1, i, perturb =>
    let i2 := 5 * i + perturb + 1
    let j := i2 &&& mask
    match tableGet t j with
    | Slot.empty => some (t.set j (Slot.entry h k))
    | _ => insertCleanLoop t mask h k fuel i2 (perturb >>> 5)

/-- Entry point of `set_insert_clean` (first probe, then the loop). -/
def set_insert_clean (t : List Slot) (mask h : ℕ) (k : Option ℕ) (fuel : ℕ) :
    Option (List Slot) :=
  let i := h &&& mask
  match tableGet t i with
  | Slot.empty => some (t.set i (Slot.entry h k))
  | _ => insertCleanLoop t mask h k fuel i h

/-- `set_table_resize(so, minused)`: pick the new size, clear the
counters, and re-insert every active entry (tombstones are dropped,
fabricated entries are re-inserted by their stored hash) with
`set_insert_clean`, which bumps `fill` and `used` once per entry. -/
def set_table_resize (st : PySet) (minused : ℕ) : Res PySet :=
  let newsize := growSize (minused + 8) 8 minused
  let nmask := newsize - 1
  let start : Option (List Slot × ℕ × ℕ) := some (List.replicate newsize Slot.empty, 0, 0)
  let step := fun (acc : Option (List Slot × ℕ × ℕ)) (s : Slot) =>
    match acc, s with
    | none, _ => none
    | some a, Slot.empty => some a
    | some a, Slot.dummy => some a
    | some (t, f, u), Slot.entry h k =>
      match set_insert_clean t nmask h k (2 * newsize + 64) with
      | none => none
      | some t2 => some (t2, f + 1, u + 1)
  match st.table.foldl step start with
  | none => Res.diverge
  | some (t, f, u) => Res.ok { table := t, mask := nmask, fill := f, used := u }

/-- `set_add_key` (reached from Python `s.add(key)`): insert, then
resize to `used*4` (or `used*2` past 50000 entries) when `used` grew and
`fill*3 >= (mask+1)*2`. -/
def set_add_key (st : PySet) (key : ℕ) : Res PySet :=
  match set_insert_key st key with
  | none => Res.diverge
  | some st1 =>
    if st1.used > st.used ∧ st1.fill * 3 ≥ (st1.mask + 1) * 2 then
      set_table_resize st1 (if st1.used > 50000 then st1.used * 2 else st1.used * 4)
    else Res.ok st1

/-- `set_discard_key` as called by Python `s.remove(key)`: look the key
up; a NULL or tombstone result means the key is absent and `remove`
raises KeyError, otherwise the slot becomes a tombstone and `used`
drops. -/
def set_remove_key (st : PySet) (key : ℕ) : Res PySet :=
  match set_lookkey st key with
  | none => Res.diverge
  | some j =>
    match tableGet st.table j with
    | Slot.empty => Res.err PyError.keyError
    | Slot.dummy => Res.err PyError.keyError
    | Slot.entry _ _ =>
        Res.ok { st with table := st.table.set j Slot.dummy, used := st.used - 1 }

/-- Does this slot hold the integer key `key`?  This is the comparison
of `PySetObject.slot_of` (src/setinfo.py lines 61-70): a NULL key raises
ValueError and is skipped, the tombstone string and the fabricated
`None` keys compare unequal to an integer, and an integer entry matches
by value. -/
def slotHolds (s : Slot) (key : ℕ) : Bool :=
  match s with
  | Slot.entry _ (some k) => k = key
  | _ => false

/-- `PySetObject.slot_of(key)` (src/setinfo.py lines 61-70): scan slots
`0 .. mask` in order and return the first one holding `key`; raise
KeyError when no slot does. -/
def slot_of (st : PySet) (key : ℕ) : Except PyError ℕ :=
  match (List.range (st.mask + 1)).find? (fun i => slotHolds (tableGet st.table i) key) with
  | some i => Except.ok i
  | none => Except.error PyError.keyError

/-- Does `key` occupy some slot of the table (the spec's "key is present
in the table snapshot")? -/
def keyOccupies (st : PySet) (key : ℕ) : Bool :=
  (List.range (st.mask + 1)).any (fun i => slotHolds (tableGet st.table i) key)

/-- A Python value that can sit in the key field of a slot, as seen by
`slot_map`: the tombstone string, the fabricated `None`, or an integer
key. -/
inductive PyVal where
  | dummyStr : PyVal
  | noneObj : PyVal
  | intVal (n : ℕ) : PyVal
deriving DecidableEq

/-- `PySetObject.slot_map` (src/setinfo.py lines 72-82).  Despite its
docstring ("a mapping of keys to their integer slot numbers") it builds
`m[i] = entry.key`, a mapping from slot numbers to key objects, and it
skips only NULL keys, so tombstones (whose key field is the dummy
string) are included. -/
def slot_map (st : PySet) : List (ℕ × PyVal) :=
  (List.range (st.mask + 1)).filterMap (fun i =>
    match tableGet st.table i with
    | Slot.empty => none
    | Slot.dummy => some (i, PyVal.dummyStr)
    | Slot.entry _ none => some (i, PyVal.noneObj)
    | Slot.entry _ (some k) => some (i, PyVal.intVal k))

/-- The keys yielded by iterating the set (`list(s)`): table order,
skipping NULL and tombstone slots.  In `probe_steps` this runs before
any obstacle is fabricated, so every occupied slot holds an integer
key. -/
def setList (st : PySet) : List ℕ :=
  (List.range (st.mask + 1)).filterMap (fun i =>
    match tableGet st.table i with
    | Slot.entry _ (some k) => some k
    | _ => none)

/-- A freshly created Python set: 8 NULL slots, mask 7, counters 0. -/
def emptySet : PySet :=
  { table := List.replicate 8 Slot.empty, mask := 7, fill := 0, used := 0 }

/-- `set(keys)`: add the keys one by one, in order, to a fresh set. -/
def buildSet (keys : List ℕ) : Res PySet :=
  keys.foldl (fun r k =>
    match r with
    | Res.ok st => set_add_key st k
    | other => other) (Res.ok emptySet)

/-- The emptying loop of `probe_steps` (src/setinfo.py lines 148-149):
`for k in list(s): s.remove(k)`, which leaves a tombstone in every
previously occupied slot. -/
def removeAll (st : PySet) : Res PySet :=
  (setList st).foldl (fun r k =>
    match r with
    | Res.ok s => set_remove_key s k
    | other => other) (Res.ok st)

/-- The while loop of `_probe_steps` (src/setinfo.py lines 118-129),
with the still-to-search list kept reversed (`acc.head?` is the
source's `slots[-1]`; the exit returns `acc.reverse`) and `fuel`
bounding the number of iterations of the otherwise unbounded loop.
Each iteration, as in the source: if the probed `slot` equals `key`
itself the write index is perturbed to `slot + len(o)`
(`len(o) = mask + 1`); the obstacle `setentry(hash(key), None)` is
written directly into the table at that index (a ctypes store, so the
`fill`/`used` counters are untouched, and `List.set` drops a write past
the end of the table just as it lands outside the modelled slots); then
the key is added, its landing slot found with `slot_of` and appended,
and the key removed again.  `ws` additionally records each obstacle
write as a pair (write index, table size at the time of the write) for
the bounds analysis; the final component is the set's state. -/
def probeStepsAux (key fs : ℕ) (fuel : ℕ) (st : PySet) (slot : ℕ)
    (acc : List ℕ) (ws : List (ℕ × ℕ)) :
    Res (List ℕ) × List (ℕ × ℕ) × PySet :=
  if acc.head? = some fs then (Res.ok acc.reverse, ws, st)
  else
    match fuel with
    | 0 => (Res.diverge, ws, st)
    | fuel' + 1 =>
      let w := if slot = key then slot + (st.mask + 1) else slot
      let st1 : PySet := { st with table := st.table.set w (Slot.entry (pyhash key) none) }
      let ws1 := ws ++ [(w, st.mask + 1)]
      match set_add_key st1 key with
      | Res.diverge => (Res.diverge, ws1, st1)
      | Res.err e => (Res.err e, ws1, st1)
      | Res.ok st2 =>
        match slot_of st2 key with
        | Except.error e => (Res.err e, ws1, st2)
        | Except.ok s2 =>
          match set_remove_key st2 key with
          | Res.diverge => (Res.diverge, ws1, st2)
          | Res.err e => (Res.err e, ws1, st2)
          | Res.ok st3 => probeStepsAux key fs fuel' st3 s2 (s2 :: acc) ws1

/-- `_probe_steps(dummyset, key, final_slot)` (src/setinfo.py lines
99-132): start from `slot = hash(key) & mask`, `slots = [slot]`, and run
the obstacle loop. -/
def reconstruct (fuel : ℕ) (st : PySet) (key fs : ℕ) : Res (List ℕ) :=
  (probeStepsAux key fs fuel st (pyhash key &&& st.mask) [pyhash key &&& st.mask] []).1

/-- The trace of obstacle writes performed by `_probe_steps`: one pair
(write index, table size at the time of the write) per loop
iteration. -/
def reconstructWrites (fuel : ℕ) (st : PySet) (key fs : ℕ) : List (ℕ × ℕ) :=
  (probeStepsAux key fs fuel st (pyhash key &&& st.mask) [pyhash key &&& st.mask] []).2.1

/-- `probe_steps(keys, key)` (src/setinfo.py lines 134-150) together
with the final state of the set it builds internally: build `set(keys)`,
record the key's slot, empty the set to tombstones, and hand over to
`_probe_steps`.  The second component is the internal container's last
computed state (the container is local to the call and unreachable to
the caller afterwards). -/
def probe_steps_run (fuel : ℕ) (keys : List ℕ) (key : ℕ) :
    Res (List ℕ) × PySet :=
  match buildSet keys with
  | Res.diverge => (Res.diverge, emptySet)
  | Res.err e => (Res.err e, emptySet)
  | Res.ok s =>
    match slot_of s key with
    | Except.error e => (Res.err e, s)
    | Except.ok final_slot =>
      match removeAll s with
      | Res.diverge => (Res.diverge, s)
      | Res.err e => (Res.err e, s)
      | Res.ok s2 =>
        match probeStepsAux key final_slot fuel s2
            (pyhash key &&& s2.mask) [pyhash key &&& s2.mask] [] with
        | (r, _, s3) => (r, s3)

/-- `probe_steps(keys, key)` (src/setinfo.py lines 134-150). -/
def probe_steps (fuel : ℕ) (keys : List ℕ) (key : ℕ) : Res (List ℕ) :=
  (probe_steps_run fuel keys key).1

/-- `probe_all_steps(keys)` (src/setinfo.py lines 152-171).  Its first
statement is `d = set.fromkeys(keys)`; the builtin `set` type has no
`fromkeys` attribute (`fromkeys` is a classmethod of `dict`), so every
call raises AttributeError here, before any container is built.  The
rest of the function is unreachable — and is itself dict code applied to
a set: `slot_map` (lines 72-82) returns a slot-to-key mapping despite
its docstring, so the loop `for key, final_slot in m.items()` would bind
`key` to a slot index and `final_slot` to a key, and the emptying loop
`del d[k]` (line 169) is a TypeError on a set. -/
def probe_all_steps (_keys : List ℕ) : Res (List (ℕ × List ℕ)) :=
  Res.err PyError.attributeError

/-- The caller's world of containers, by address, for the frame
properties: the repository's routines only ever mutate the set they
construct themselves. -/
def Store : Type := ℕ → Option PySet

/-- `probe_steps` as observed from the caller's world: the internal
`s = set(keys)` is allocated at a fresh address `a`; every container
operation of the source names only that set (or `o`, its ctypes view),
so the store is written at `a` alone. -/
def probe_steps_heap (σ : Store) (a : ℕ) (fuel : ℕ) (keys : List ℕ) (key : ℕ) :
    Res (List ℕ) × Store :=
  let r := probe_steps_run fuel keys key
  (r.1, fun b => if b = a then some r.2 else σ b)

/-- `probe_all_steps` as observed from the caller's world: it raises
AttributeError before allocating or touching any container, so the
store is untouched. -/
def probe_all_steps_heap (σ : Store) (keys : List ℕ) :
    Res (List (ℕ × List ℕ)) × Store :=
  (probe_all_steps keys, σ)

/-- The state `probe_steps([17, 1], 1)` hands to `_probe_steps`: the
set `{17, 1}` is built (17 lands in slot 1, 1 collides there and lands
in slot 7) and emptied, leaving tombstones in slots 1 and 7 with
`fill = 2`, `used = 0`.  This satisfies the reconstruction precondition:
only Empty/Tombstone slots, key 1 absent, final slot 7 valid. -/
def base17 : PySet :=
  { table := [Slot.empty, Slot.dummy, Slot.empty, Slot.empty,
              Slot.empty, Slot.empty, Slot.empty, Slot.dummy],
    mask := 7, fill := 2, used := 0 }

/-- The state `probe_steps([5], 5)` hands to `_probe_steps`: one
tombstone in slot 5. -/
def base5 : PySet :=
  { table := [Slot.empty, Slot.empty, Slot.empty, Slot.empty,
              Slot.empty, Slot.dummy, Slot.empty, Slot.empty],
    mask := 7, fill := 1, used := 0 }

/-- The set built from the key list `[1]`: key 1 in slot 1. -/
def build1 : PySet :=
  { table := [Slot.empty, Slot.entry 1 (some 1), Slot.empty, Slot.empty,
              Slot.empty, Slot.empty, Slot.empty, Slot.empty],
    mask := 7, fill := 1, used := 1 }

/-- A caller's world holding one container at address 0. -/
def store0 : Store := fun b => if b = 0 then some emptySet else none

/-- Whenever the reconstruction loop exits normally, the list it
returns is the reverse of the accumulator at a point where the
accumulator's head (the source's `slots[-1]`) equals `final_slot`. -/
theorem probeStepsAux_ok_last (key fs : ℕ) :
    ∀ (fuel : ℕ) (st : PySet) (slot : ℕ) (acc : List ℕ) (ws : List (ℕ × ℕ))
      (l : List ℕ),
      (probeStepsAux key fs fuel st slot acc ws).1 = Res.ok l →
      l ≠ [] ∧ l.getLast? = some fs := by
  intro fuel
  induction fuel with
  | zero =>
    intro st slot acc ws l h
    rw [probeStepsAux] at h
    by_cases hc : acc.head? = some fs
    · rw [if_pos hc] at h
      have hl : acc.reverse = l := by simpa using h
      subst hl
      refine ⟨?_, by rw [List.getLast?_reverse]; exact hc⟩
      intro he
      rw [List.reverse_eq_nil_iff] at he
      subst he
      simp at hc
    · rw [if_neg hc] at h
      simp at h
  | succ fuel ih =>
    intro st slot acc ws l h
    rw [probeStepsAux] at h
    by_cases hc : acc.head? = some fs
    · rw [if_pos hc] at h
      have hl : acc.reverse = l := by simpa using h
      subst hl
      refine ⟨?_, by rw [List.getLast?_reverse]; exact hc⟩
      intro he
      rw [List.reverse_eq_nil_iff] at he
      subst he
      simp at hc
    · rw [if_neg hc] at h
      dsimp only at h
      split at h
      · simp at h
      · simp at h
      · split at h
        · simp at h
        · split at h
          · simp at h
          · simp at h
          · exact ih _ _ _ _ _ h

/-- Whenever the reconstruction loop exits normally, the head of the
returned list is the last element of the (reversed) accumulator it
started from: the loop only ever prepends to the accumulator. -/
theorem probeStepsAux_ok_head (key fs : ℕ) :
    ∀ (fuel : ℕ) (st : PySet) (slot : ℕ) (acc : List ℕ) (ws : List (ℕ × ℕ))
      (l : List ℕ),
      acc ≠ [] →
      (probeStepsAux key fs fuel st slot acc ws).1 = Res.ok l →
      l.head? = acc.getLast? := by
  intro fuel
  induction fuel with
  | zero =>
    intro st slot acc ws l hacc h
    rw [probeStepsAux] at h
    by_cases hc : acc.head? = some fs
    · rw [if_pos hc] at h
      have hl : acc.reverse = l := by simpa using h
      subst hl
      exact List.head?_reverse acc
    · rw [if_neg hc] at h
      simp at h
  | succ fuel ih =>
    intro st slot acc ws l hacc h
    rw [probeStepsAux] at h
    by_cases hc : acc.head? = some fs
    · rw [if_pos hc] at h
      have hl : acc.reverse = l := by simpa using h
      subst hl
      exact List.head?_reverse acc
    · rw [if_neg hc] at h
      dsimp only at h
      split at h
      · simp at h
      · simp at h
      · split at h
        · simp at h
        · split at h
          · simp at h
          · simp at h
          · obtain ⟨a, t, rfl⟩ := List.exists_cons_of_ne_nil hacc
            have hstep := ih _ _ _ _ _ (by exact List.cons_ne_nil _ _) h
            rwa [List.getLast?_cons_cons] at hstep

/-- `set_table_resize` either produces a set or models the C loop
running forever; it raises nothing. -/
theorem set_table_resize_not_err (st : PySet) (m : ℕ) (e : PyError) :
    set_table_resize st m = Res.err e → False := by
  intro h
  rw [set_table_resize] at h
  split at h <;> simp at h

/-- `s.add(key)` either succeeds or fails to terminate; it raises
nothing (integer keys always hash). -/
theorem set_add_key_not_err (st : PySet) (k : ℕ) (e : PyError) :
    set_add_key st k = Res.err e → False := by
  intro h
  rw [set_add_key] at h
  split at h
  · simp at h
  · split at h
    · exact set_table_resize_not_err _ _ _ h
    · simp at h

/-- The only exception `s.remove(key)` raises is KeyError. -/
theorem set_remove_key_err (st : PySet) (k : ℕ) (e : PyError) :
    set_remove_key st k = Res.err e → e = PyError.keyError := by
  intro h
  rw [set_remove_key] at h
  split at h
  · simp at h
  · split at h
    · injection h with h
      exact h.symm
    · injection h with h
      exact h.symm
    · simp at h

/-- The only exception `slot_of` raises is KeyError. -/
theorem slot_of_error_eq (st : PySet) (k : ℕ) (e : PyError) :
    slot_of st k = Except.error e → e = PyError.keyError := by
  intro h
  rw [slot_of] at h
  split at h
  · simp at h
  · injection h with h
    exact h.symm

/-- A slot index returned by `slot_of` lies within the table: the scan
covers indices `0 .. mask` only. -/
theorem slot_of_le_mask (st : PySet) (k i : ℕ) :
    slot_of st k = Except.ok i → i ≤ st.mask := by
  intro h
  rw [slot_of] at h
  split at h
  · rename_i j hj
    injection h with h
    subst h
    have hm := List.mem_of_find?_eq_some hj
    have hr := List.mem_range.mp hm
    omega
  · simp at h

/-- The slot index returned by `slot_of` really holds the key. -/
theorem slot_of_holds (st : PySet) (k i : ℕ) :
    slot_of st k = Except.ok i → slotHolds (tableGet st.table i) k = true := by
  intro h
  rw [slot_of] at h
  split at h
  · rename_i j hj
    injection h with h
    subst h
    have hp := List.find?_some hj
    simpa using hp
  · simp at h

/-- Removing a key never changes the table size. -/
theorem set_remove_key_mask (st : PySet) (k : ℕ) (st2 : PySet) :
    set_remove_key st k = Res.ok st2 → st2.mask = st.mask := by
  intro h
  rw [set_remove_key] at h
  split at h
  · simp at h
  · split at h
    · simp at h
    · simp at h
    · injection h with h
      subst h
      rfl

/-- The reconstruction loop has exactly three kinds of outcome: a
returned path, non-termination, or a propagated KeyError — the only
exceptions its callees can raise come from `slot_of` and
`set_remove_key`, which raise KeyError alone, and `set_add_key` raises
nothing. -/
theorem probeStepsAux_classify (key fs : ℕ) :
    ∀ (fuel : ℕ) (st : PySet) (slot : ℕ) (acc : List ℕ) (ws : List (ℕ × ℕ)),
      (∃ l, (probeStepsAux key fs fuel st slot acc ws).1 = Res.ok l) ∨
      (probeStepsAux key fs fuel st slot acc ws).1 = Res.diverge ∨
      (probeStepsAux key fs fuel st slot acc ws).1 = Res.err PyError.keyError := by
  intro fuel
  induction fuel with
  | zero =>
    intro st slot acc ws
    rw [probeStepsAux]
    by_cases hc : acc.head? = some fs
    · rw [if_pos hc]
      exact Or.inl ⟨acc.reverse, rfl⟩
    · rw [if_neg hc]
      exact Or.inr (Or.inl rfl)
  | succ fuel ih =>
    intro st slot acc ws
    rw [probeStepsAux]
    by_cases hc : acc.head? = some fs
    · rw [if_pos hc]
      exact Or.inl ⟨acc.reverse, rfl⟩
    · rw [if_neg hc]
      dsimp only
      split
      · exact Or.inr (Or.inl rfl)
      · rename_i e heq
        exact absurd heq (fun hh => set_add_key_not_err _ _ _ hh)
      · split
        · rename_i e heq
          rw [slot_of_error_eq _ _ _ heq]
          exact Or.inr (Or.inr rfl)
        · split
          · exact Or.inr (Or.inl rfl)
          · rename_i e heq
            rw [set_remove_key_err _ _ _ heq]
            exact Or.inr (Or.inr rfl)
          · exact ih _ _ _ _

/-- Bound on the obstacle writes of the reconstruction loop: provided
the current probe slot is within the table (which `slot_of` and the
initial `hash & mask` guarantee), every write recorded in the trace
either targets an index below the table size current at the write, or
is the perturbed `slot == key` write, whose index is exactly
`key + size`. -/
theorem probeStepsAux_writes (key fs : ℕ) :
    ∀ (fuel : ℕ) (st : PySet) (slot : ℕ) (acc : List ℕ) (ws : List (ℕ × ℕ)),
      slot ≤ st.mask →
      (∀ p ∈ ws, p.1 < p.2 ∨ p.1 = key + p.2) →
      ∀ p ∈ (probeStepsAux key fs fuel st slot acc ws).2.1,
        p.1 < p.2 ∨ p.1 = key + p.2 := by
  intro fuel
  induction fuel with
  | zero =>
    intro st slot acc ws hslot hws p hp
    rw [probeStepsAux] at hp
    by_cases hc : acc.head? = some fs
    · rw [if_pos hc] at hp
      exact hws p hp
    · rw [if_neg hc] at hp
      exact hws p hp
  | succ fuel ih =>
    intro st slot acc ws hslot hws p hp
    rw [probeStepsAux] at hp
    by_cases hc : acc.head? = some fs
    · rw [if_pos hc] at hp
      exact hws p hp
    · rw [if_neg hc] at hp
      dsimp only at hp
      have hws1 : ∀ q ∈ ws ++ [((if slot = key then slot + (st.mask + 1) else slot),
          st.mask + 1)], q.1 < q.2 ∨ q.1 = key + q.2 := by
        intro q hq
        rcases List.mem_append.mp hq with hq2 | hq2
        · exact hws q hq2
        · have hq3 : q = ((if slot = key then slot + (st.mask + 1) else slot),
              st.mask + 1) := by simpa using hq2
          subst hq3
          by_cases hk : slot = key
          · subst hk
            right
            simp
          · left
            simp only [if_neg hk]
            omega
      split at hp
      · exact hws1 p hp
      · exact hws1 p hp
      · next st2 hadd =>
        split at hp
        · exact hws1 p hp
        · next s2 hsl =>
          split at hp
          · exact hws1 p hp
          · exact hws1 p hp
          · next st3 hrem =>
            refine ih _ _ _ _ ?_ hws1 p hp
            rw [set_remove_key_mask _ _ _ hrem]
            exact slot_of_le_mask _ _ _ hsl

/-- One iteration of the reconstruction loop on `base17` with key 1 and
final slot 7: the probed slot 1 equals the key, so the obstacle write is
perturbed to index 9, which lies outside the 8-slot table and therefore
changes nothing; the re-inserted key lands in slot 1 again (the earliest
tombstone on its probe path), and after the removal the container is
back in the `base17` state, with slot 1 appended once more. -/
theorem probeStepsAux_base17_step (fuel : ℕ) (rest : List ℕ) (ws : List (ℕ × ℕ)) :
    probeStepsAux 1 7 (fuel + 1) base17 1 (1 :: rest) ws
      = probeStepsAux 1 7 fuel base17 1 (1 :: 1 :: rest) (ws ++ [(9, 8)]) := by
  rw [probeStepsAux]
  rw [if_neg (by simp)]
  rfl

/-- The reconstruction loop on `base17` with key 1 and final slot 7
never terminates, for any iteration budget: every iteration reproduces
the same container state and probes slot 1 again. -/
theorem probeStepsAux_base17_diverge :
    ∀ (fuel : ℕ) (rest : List ℕ) (ws : List (ℕ × ℕ)),
      (probeStepsAux 1 7 fuel base17 1 (1 :: rest) ws).1 = Res.diverge := by
  intro fuel
  induction fuel with
  | zero =>
    intro rest ws
    rw [probeStepsAux]
    rw [if_neg (by simp)]
  | succ fuel ih =>
    intro rest ws
    rw [probeStepsAux_base17_step]
    exact ih (1 :: rest) (ws ++ [(9, 8)])

/-- C1: the claim states that `probe_all_steps` returns a mapping from
every input key to that key's probe sequence.  It does not: its first
statement `d = set.fromkeys(keys)` raises AttributeError for every
input, because the builtin `set` type has no `fromkeys` method
(`fromkeys` is a classmethod of `dict`), so no mapping is ever
returned.  (Beyond that first line, `slot_map` maps slots to keys
rather than keys to slots, contradicting its own docstring, and the
emptying loop `del d[k]` is a TypeError on a set.) -/
theorem probe_all_steps_raises_attribute_error (keys : List ℕ) :
    probe_all_steps keys = Res.err PyError.attributeError := rfl

/-- C2: whenever `reconstruct` (`_probe_steps`) returns a path, the
path is non-empty and its last element is the `final_slot` argument:
the loop starts from a one-element list and exits exactly when the last
discovered slot equals `final_slot`. -/
theorem reconstruct_last_is_final_slot (fuel : ℕ) (st : PySet) (key fs : ℕ)
    (l : List ℕ) (h : reconstruct fuel st key fs = Res.ok l) :
    0 < l.length ∧ l.getLast? = some fs := by
  obtain ⟨h1, h2⟩ := probeStepsAux_ok_last key fs fuel st _ _ _ l h
  exact ⟨List.length_pos.mpr h1, h2⟩

/-- Witness for C2: on the table holding one tombstone in slot 5,
reconstructing key 5 with final slot 5 returns the path `[5]`, which is
non-empty and ends in 5. -/
theorem reconstruct_last_is_final_slot_witness :
    0 < ([5] : List ℕ).length ∧ ([5] : List ℕ).getLast? = some 5 :=
  reconstruct_last_is_final_slot 3 base5 5 5 [5] (by decide)

/-- C3: whenever `reconstruct` returns a path, the first element is
`hash(key) & mask`, the unperturbed initial probe slot computed at
src/setinfo.py line 115 (`mask = n - 1` for the power-of-two table size
`n`): nothing is ever added in front of it. -/
theorem reconstruct_first_is_initial_probe (fuel : ℕ) (st : PySet) (key fs : ℕ)
    (l : List ℕ) (h : reconstruct fuel st key fs = Res.ok l) :
    l.head? = some (pyhash key &&& st.mask) := by
  have hh := probeStepsAux_ok_head key fs fuel st (pyhash key &&& st.mask)
    [pyhash key &&& st.mask] [] l (by simp) h
  simpa using hh

/-- Witness for C3: the path `[5]` reconstructed for key 5 starts at
`hash(5) & 7 = 5`. -/
theorem reconstruct_first_is_initial_probe_witness :
    ([5] : List ℕ).head? = some (pyhash 5 &&& base5.mask) :=
  reconstruct_first_is_initial_probe 3 base5 5 5 [5] (by decide)

/-- C4, counterexample: on the valid-precondition input produced by
`probe_steps([17, 1], 1)` (table `base17`, key 1, final slot 7,
`slot_count = 8`) the trial-insertion loop is still running after 9
iterations — more than `slot_count` — and no InvariantError (or any
other exception) has been raised, contradicting the claim that
exceeding `slot_count` iterations raises InvariantError. -/
theorem reconstruct_exceeds_slot_count_without_error :
    reconstruct 9 base17 1 7 = Res.diverge := by
  have h : reconstruct 9 base17 1 7 = (probeStepsAux 1 7 9 base17 1 [1] []).1 := rfl
  rw [h]
  exact probeStepsAux_base17_diverge 9 [] []

/-- C4, amended: `reconstruct` enforces no iteration bound and the
source defines no InvariantError; every call either returns a path,
keeps looping, or propagates the container lookup's KeyError — in
particular `Res.err PyError.invariantError` is never among its
outcomes. -/
theorem reconstruct_outcomes_no_invariant_error (fuel : ℕ) (st : PySet)
    (key fs : ℕ) :
    (∃ l, reconstruct fuel st key fs = Res.ok l) ∨
    reconstruct fuel st key fs = Res.diverge ∨
    reconstruct fuel st key fs = Res.err PyError.keyError :=
  probeStepsAux_classify key fs fuel st _ _ _

/-- C5: the claim states that under the reconstruction precondition the
loop terminates in at most `slot_count` iterations.  It does not:
`probe_steps([17, 1], 1)` satisfies the precondition (key 1 resided in
final slot 7 of the freshly built table; the emptied table `base17`
holds only tombstones) and the loop never terminates at any iteration
budget, because the probed slot 1 equals the key, the obstacle write is
perturbed out of the table, and the key re-lands in slot 1 forever. -/
theorem probe_steps_17_1_diverges (fuel : ℕ) :
    probe_steps fuel [17, 1] 1 = Res.diverge := by
  have h : probe_steps fuel [17, 1] 1
      = (probeStepsAux 1 7 fuel base17 1 [1] []).1 := rfl
  rw [h]
  exact probeStepsAux_base17_diverge fuel [] []

/-- C6: the claim states that within `probe_all_steps` each key's
reconstruction starts from the pure-tombstone baseline.  No
reconstruction ever starts: on the spec's own scenario `[1, 9, 17]` the
call dies with AttributeError at `set.fromkeys` before building any
container, and the baseline-reset loop it would have used, `del d[k]`
(line 169), is dict code that is a TypeError on a set. -/
theorem probe_all_steps_scenario_crashes :
    probe_all_steps [1, 9, 17] = Res.err PyError.attributeError := rfl

/-- C7: neither `probe_steps` nor `probe_all_steps` mutates anything
the caller holds: `probe_steps` allocates its own set (`s = set(keys)`)
at a fresh address and every mutation of the source targets that set,
so every other address of the caller's store reads back unchanged; and
`probe_all_steps` raises before touching any container, leaving the
store identical.  The key list itself is only ever read (by `set(keys)`
and `set.fromkeys(keys)`). -/
theorem core_calls_leave_caller_store_unchanged (σ : Store) (a : ℕ) (fuel : ℕ)
    (keys : List ℕ) (key : ℕ) (b : ℕ) (_hfresh : σ a = none) (hb : b ≠ a) :
    (probe_steps_heap σ a fuel keys key).2 b = σ b ∧
    (probe_all_steps_heap σ keys).2 b = σ b := by
  constructor
  · simp only [probe_steps_heap]
    rw [if_neg hb]
  · rfl

/-- Witness for C7: with a caller container at address 0 and the
internal set allocated at the fresh address 1, address 0 is unchanged
by both calls. -/
theorem core_calls_leave_caller_store_unchanged_witness :
    (probe_steps_heap store0 1 5 [5] 5).2 0 = store0 0 ∧
    (probe_all_steps_heap store0 [5]).2 0 = store0 0 :=
  core_calls_leave_caller_store_unchanged store0 1 5 [5] 5 0 rfl (by decide)

/-- C8: `reconstruct` is deterministic — two calls on identical
container states with the same key and final slot return identical
results; the embedding of src/setinfo.py lines 99-132 is a pure
function of exactly these inputs (CPython's integer hashing and probe
schedule contain no randomness). -/
theorem reconstruct_deterministic (fuel : ℕ) (st1 st2 : PySet) (k1 k2 f1 f2 : ℕ)
    (hst : st1 = st2) (hk : k1 = k2) (hf : f1 = f2) :
    reconstruct fuel st1 k1 f1 = reconstruct fuel st2 k2 f2 := by
  subst hst
  subst hk
  subst hf
  rfl

/-- Witness for C8: two identical reconstruction calls on `base5`
agree. -/
theorem reconstruct_deterministic_witness :
    reconstruct 3 base5 5 5 = reconstruct 3 base5 5 5 :=
  reconstruct_deterministic 3 base5 base5 5 5 5 5 rfl rfl rfl

/-- C9: `slot_of` raises KeyError exactly when the key occupies no slot
of the table snapshot; when the key does occupy a slot it returns an
in-table index that actually holds the key; and the KeyError is
propagated unrecovered through `probe_steps` to the caller (the
source's KeyError is the spec's NotFoundError). -/
theorem slot_of_spec (st : PySet) (key : ℕ) :
    ((slot_of st key = Except.error PyError.keyError) ↔ keyOccupies st key = false) ∧
    (keyOccupies st key = true → ∃ i, slot_of st key = Except.ok i) ∧
    (∀ i, slot_of st key = Except.ok i →
        i ≤ st.mask ∧ slotHolds (tableGet st.table i) key = true) ∧
    (∀ fuel keys s e, buildSet keys = Res.ok s → slot_of s key = Except.error e →
        probe_steps fuel keys key = Res.err e) := by
  refine ⟨⟨?_, ?_⟩, ?_, ?_, ?_⟩
  · intro h
    rw [slot_of] at h
    split at h
    · simp at h
    · rename_i hnone
      rw [List.find?_eq_none] at hnone
      simp only [keyOccupies, List.any_eq_false]
      intro i hi
      simpa using hnone i hi
  · intro h
    rw [slot_of]
    split
    · rename_i j hj
      exfalso
      have hmem := List.mem_of_find?_eq_some hj
      have hpj := List.find?_some hj
      have htrue : keyOccupies st key = true := by
        simp only [keyOccupies, List.any_eq_true]
        refine ⟨j, hmem, ?_⟩
        simpa using hpj
      rw [htrue] at h
      cases h
    · rfl
  · intro h
    rw [slot_of]
    split
    · exact ⟨_, rfl⟩
    · rename_i hnone
      exfalso
      rw [List.find?_eq_none] at hnone
      simp only [keyOccupies, List.any_eq_true] at h
      obtain ⟨i, hi, hpi⟩ := h
      have hni := hnone i hi
      simp only [decide_eq_true_eq] at hni
      exact hni hpi
  · intro i h
    exact ⟨slot_of_le_mask st key i h, slot_of_holds st key i h⟩
  · intro fuel keys s e hb hs
    simp only [probe_steps, probe_steps_run, hb, hs]

/-- Witness for C9: key 2 occupies no slot of the set built from
`[1]`, and `probe_steps([1], 2)` surfaces the KeyError unrecovered. -/
theorem slot_of_spec_witness : probe_steps 3 [1] 2 = Res.err PyError.keyError :=
  (slot_of_spec build1 2).2.2.2 3 [1] build1 PyError.keyError (by decide) (by rfl)

/-- C10, counterexample: the claim states that every fabricated
obstacle write stays within `[0, slot_count)`.  On `base17` with key 1
and final slot 7 the very first iteration probes slot 1, which equals
the key, perturbs the index by `slot_count`, and writes at index 9 of
the 8-slot table: the recorded write trace is `[(9, 8)]` with
`8 < 9`. -/
theorem reconstruct_write_escapes_table_bounds :
    reconstructWrites 1 base17 1 7 = [(9, 8)] ∧ 8 < 9 := by decide

/-- C10, amended: every fabricated-obstacle write of the reconstruction
loop targets an index below the table size current at the time of the
write, except in the branch where the probed slot equals the key
itself: there the written index is exactly `key + slot_count`, which is
at or beyond the table bound (the write then falls outside the
table). -/
theorem reconstruct_writes_in_bounds_unless_slot_is_key (fuel : ℕ) (st : PySet)
    (key fs : ℕ) (p : ℕ × ℕ) (hp : p ∈ reconstructWrites fuel st key fs) :
    p.1 < p.2 ∨ p.1 = key + p.2 :=
  probeStepsAux_writes key fs fuel st _ _ [] Nat.and_le_right (by simp) p hp

/-- Witness for C10's amended statement: reconstructing key 9 (final
slot 7) on `base17` performs the single in-bounds write `(1, 8)`. -/
theorem reconstruct_writes_in_bounds_unless_slot_is_key_witness :
    ((1 : ℕ), (8 : ℕ)).1 < ((1 : ℕ), (8 : ℕ)).2 ∨
    ((1 : ℕ), (8 : ℕ)).1 = 9 + ((1 : ℕ), (8 : ℕ)).2 :=
  reconstruct_writes_in_bounds_unless_slot_is_key 20 base17 9 7 (1, 8) (by decide)
